import Mathlib

/-!
Verification development for the GStreamer + Qt playback proof-of-concept
(src/main.cpp).  The player logic is shallowly embedded: pure helpers become
Lean functions, the stateful slots of class GstQtPlayer become explicit
state-passing functions over a `Player` record, and the calls the slots make
into the engine (state requests, pad links, probe attachment, caps updates)
are recorded as explicit event traces so that ordering claims can be settled.

Machine integers are modelled as `Nat`/`Int` (no value in the claims comes
near an overflow boundary); `GstClockTime` timestamps are `Option Nat`, with
`none` standing for GST_CLOCK_TIME_NONE; the C `double` percentile argument
is modelled as an exact rational, which coincides with the double computation
for the two percentiles (50, 95) the program uses and the window sizes it
keeps (≤ 1201 samples).
-/

namespace GstQtPoc

/-! ## Percentile helper (main.cpp lines 32-37)

`percentile` copies the source shape: empty check returning 0, index
`floor((p/100) * (size-1))`, then `std::nth_element` followed by `v[idx]`.
`nthElemSelect` embeds nth_element + indexing as a pivot-partition selection
(the algorithm family nth_element implements): it returns the element that
would sit at the given index in the value-sorted order. -/

def nthElemSelect : List Int → Nat → Int
  | [], _ => 0
  | x :: xs, k =>
    let lt := xs.filter (fun y => y < x)
    let ge := xs.filter (fun y => !decide (y < x))
    if k < lt.length then nthElemSelect lt k
    else if k = lt.length then x
    else nthElemSelect ge (k - lt.length - 1)
termination_by l _ => l.length
decreasing_by
  all_goals simp only [List.length_cons]
  all_goals exact Nat.lt_succ_of_le (List.length_filter_le _ _)

/-- percentile(), main.cpp lines 32-37: `if (v.empty()) return 0;` then
`idx = floor((p/100.0) * (v.size()-1))`, `nth_element`, `return v[idx]`. -/
def percentile (v : List Int) (p : ℚ) : Int :=
  if v.isEmpty then 0
  else nthElemSelect v (⌊p / 100 * ((v.length : ℚ) - 1)⌋).toNat

/-- The value-sorted order of a sample list (the order `std::nth_element`
selects from). -/
def sortedOf (v : List Int) : List Int := List.insertionSort (· ≤ ·) v

/-! ## Metrics Collector (fields of GstQtPlayer, onSinkBufferProbe) -/

/-- GST_MSECOND: nanoseconds per millisecond. -/
def GST_MSECOND : Int := 1000000

structure Metrics where
  firstFrameSeen : Bool
  ttffArmed : Bool
  lastPts : Option Nat
  frames : List Int
  frameCount : Int
deriving DecidableEq

/-- Window append followed by the capacity trim, main.cpp lines 550 and
563-566: `frames_.push_back(delta_ms)` and then
`if (frames_.size() > 1200) erase(begin, begin+200)`. -/
def appendSample (frames : List Int) (delta_ms : Int) : List Int :=
  let f := frames ++ [delta_ms]
  if 1200 < f.length then f.drop 200 else f

/-- The window reached by a sequence of appended interval samples starting
from the cleared window (the only way the program ever grows `frames_`). -/
def windowOf (ds : List Int) : List Int := ds.foldl appendSample []

/-- onSinkBufferProbe, main.cpp lines 529-572, restricted to its state
effect for one buffer whose PTS is `pts` (`none` = GST_CLOCK_TIME_NONE).
The first-frame branch (lines 537-542) sets `firstFrameSeen_` and logs TTFF;
the percentile report every 60 samples (lines 553-561) only logs, using
fresh copies of the window, so it has no state effect.  The `!buf`
early-return leaves the state untouched and is not modelled. -/
def onSinkBufferProbe (m : Metrics) (pts : Option Nat) : Metrics :=
  let m1 : Metrics := { m with firstFrameSeen := true }
  match pts with
  | none => m1
  | some t =>
    match m.lastPts with
    | none => { m1 with lastPts := some t }
    | some l =>
      let delta_ns : Int := (t : Int) - (l : Int)
      if 0 < delta_ns then
        { m1 with
            frames := appendSample m1.frames (delta_ns / GST_MSECOND),
            frameCount := m1.frameCount + 1,
            lastPts := some t }
      else
        { m1 with lastPts := some t }

/-! ## Player state, control slots and their engine-command traces -/

inductive GstState
  | null
  | ready
  | paused
  | playing
deriving DecidableEq

structure Caps where
  width : Int
  height : Int
deriving DecidableEq

/-- Engine-facing commands issued by the control slots, in program order. -/
inductive Ev
  | setStateReq (s : GstState)
  | armTTFF
  | resetMetricsWindow
  | clearLastPts
  | setBtnText (t : String)
  | attachProbe
  | setCaps (c : Option Caps)
  | sendReconfigure
  | setThrottleText (t : String)
deriving DecidableEq

structure Player where
  pState : GstState
  btnText : String
  throttleText : String
  lowQuality : Bool
  vcapsCaps : Option Caps
  sinkProbeAttached : Bool
  metrics : Metrics
deriving DecidableEq

/-- The metrics fields right after the reset block of togglePlayPause
(main.cpp lines 248-252): stopwatch re-armed, first-frame flag cleared,
window cleared, frame counter zeroed, last PTS cleared. -/
def resetMetrics : Metrics :=
  { firstFrameSeen := false, ttffArmed := true, lastPts := none
    frames := [], frameCount := 0 }

/-- Metrics fields as initialized by the member initializers
(main.cpp lines 624-629). -/
def initMetrics : Metrics :=
  { firstFrameSeen := false, ttffArmed := false, lastPts := none
    frames := [], frameCount := 0 }

/-- Player state right after the constructor: pipeline still in NULL,
button labels as created (lines 59, 64), lowQuality_ false (line 621),
capsfilter unconstrained, probe not attached. -/
def initialPlayer : Player :=
  { pState := GstState.null, btnText := "Play"
    throttleText := "Simulate bitrate drop", lowQuality := false
    vcapsCaps := none, sinkProbeAttached := false, metrics := initMetrics }

/-- attachSinkProbeIfNeeded, main.cpp lines 574-585: guarded by
`sinkProbeAttached_`; if the sink pad is unavailable it warns and returns
without setting the flag. -/
def attachSinkProbeIfNeeded (sinkPadAvail : Bool) (p : Player) :
    Player × List Ev :=
  if p.sinkProbeAttached then (p, [])
  else if sinkPadAvail then
    ({ p with sinkProbeAttached := true }, [Ev.attachProbe])
  else (p, [])

/-- togglePlayPause, main.cpp lines 238-259.  `pipeline_` is never null in a
constructed player (the constructor aborts on element-creation failure), so
the null guard at line 239 is not modelled.  Program order in the non-playing
branch: timer restart, metrics reset, lastPts clear, THEN the PLAYING state
request, then the button label, then attachSinkProbeIfNeeded. -/
def togglePlayPause (sinkPadAvail : Bool) (p : Player) : Player × List Ev :=
  if p.pState = GstState.playing then
    ({ p with pState := GstState.paused, btnText := "Play" },
      [Ev.setStateReq GstState.paused, Ev.setBtnText "Play"])
  else
    let p1 : Player :=
      { p with metrics := resetMetrics, pState := GstState.playing
               btnText := "Pause" }
    let r := attachSinkProbeIfNeeded sinkPadAvail p1
    (r.1,
      [Ev.armTTFF, Ev.resetMetricsWindow, Ev.clearLastPts,
       Ev.setStateReq GstState.playing, Ev.setBtnText "Pause"] ++ r.2)

/-- The prefix of a command trace issued strictly before the first PLAYING
state request. -/
def beforePlayReq (tr : List Ev) : List Ev :=
  tr.takeWhile (fun e => decide (e ≠ Ev.setStateReq GstState.playing))

/-- Bus messages relevant to pumpBus (main.cpp lines 261-293); every other
message type falls into the default case. -/
inductive GstMessage
  | error (msg : String)
  | eos
  | other
deriving DecidableEq

/-- One iteration of the pumpBus drain loop for a popped message:
GST_MESSAGE_ERROR and GST_MESSAGE_EOS both request READY and reset the
play-button label (lines 268-288); everything else is ignored. -/
def processMessage (p : Player) (m : GstMessage) : Player × List Ev :=
  match m with
  | GstMessage.error _ =>
      ({ p with pState := GstState.ready, btnText := "Play" },
       [Ev.setStateReq GstState.ready, Ev.setBtnText "Play"])
  | GstMessage.eos =>
      ({ p with pState := GstState.ready, btnText := "Play" },
       [Ev.setStateReq GstState.ready, Ev.setBtnText "Play"])
  | GstMessage.other => (p, [])

/-- pumpBus, main.cpp lines 261-293: drain all queued messages in order. -/
def pumpBus (p : Player) : List GstMessage → Player × List Ev
  | [] => (p, [])
  | m :: rest =>
    let r := processMessage p m
    let r2 := pumpBus r.1 rest
    (r2.1, r.2 ++ r2.2)

/-- The 640x360 constraint caps built at main.cpp lines 340-344. -/
def lowCaps : Caps := { width := 640, height := 360 }

/-- toggleQuality, main.cpp lines 331-366.  `pipeline_` and `vcaps_` are
never null in a constructed player, so the guard at line 332 is not
modelled.  Both branches first request PAUSED, mutate the capsfilter, send
a reconfigure event to the videoscale element, flip `lowQuality_`, relabel
the button, and unconditionally request PLAYING at line 365. -/
def toggleQuality (p : Player) : Player × List Ev :=
  if p.lowQuality = false then
    ({ p with pState := GstState.playing, vcapsCaps := some lowCaps
              lowQuality := true, throttleText := "Restore quality" },
     [Ev.setStateReq GstState.paused, Ev.setCaps (some lowCaps),
      Ev.sendReconfigure, Ev.setThrottleText "Restore quality",
      Ev.setStateReq GstState.playing])
  else
    ({ p with pState := GstState.playing, vcapsCaps := none
              lowQuality := false, throttleText := "Simulate bitrate drop" },
     [Ev.setStateReq GstState.paused, Ev.setCaps none,
      Ev.sendReconfigure, Ev.setThrottleText "Simulate bitrate drop",
      Ev.setStateReq GstState.playing])

/-- N successive toggleQuality invocations. -/
def iterToggleQuality (p : Player) : Nat → Player
  | 0 => p
  | n + 1 => (toggleQuality (iterToggleQuality p n)).1

/-! ## Stream Router (onPadAdded, main.cpp lines 399-527) -/

/-- g_str_has_prefix, modelled on code points. -/
def gstrHasPref (s pre : String) : Bool := pre.toList.isPrefixOf s.toList

inductive Branch
  | video
  | audio
deriving DecidableEq

inductive PadDir
  | src
  | sink
deriving DecidableEq

/-- A pad-added callback input: the new pad's direction and the name of the
first structure of its caps.  `none` collapses the four early-return cases
of lines 408-429 (no caps, empty caps, no structure, unnamed structure),
all of which return without touching the graph. -/
structure PadEvent where
  dir : PadDir
  capsName : Option String
deriving DecidableEq

/-- Linked status of the three input endpoints the router can link into:
the cencdec sink pad and the two branch queue sink pads. -/
structure Links where
  cencSink : Bool
  qVideoSink : Bool
  qAudioSink : Bool
deriving DecidableEq

def Links.init : Links :=
  { cencSink := false, qVideoSink := false, qAudioSink := false }

def qLinked (L : Links) : Branch → Bool
  | Branch.video => L.qVideoSink
  | Branch.audio => L.qAudioSink

def setQLinked (L : Links) : Branch → Links
  | Branch.video => { L with qVideoSink := true }
  | Branch.audio => { L with qAudioSink := true }

/-- Environment of one onPadAdded invocation: which optional pieces exist
(cencdec element, its static pads, the target queue's sink pad) and the
outcome the engine would return for each of the three possible
gst_pad_link calls, if attempted. -/
structure RouteEnv where
  hasCencdec : Bool
  cencSinkAvail : Bool
  cencSrcAvail : Bool
  qSinkAvail : Bool
  linkPadToCencOk : Bool
  linkCencToQueueOk : Bool
  linkPadToQueueOk : Bool
deriving DecidableEq

/-- A gst_pad_link attempt made by the router, with its result. -/
inductive LinkEv
  | padToCenc (ok : Bool)
  | cencToQueue (b : Branch) (ok : Bool)
  | padToQueue (b : Branch) (ok : Bool)
deriving DecidableEq

/-- Core of onPadAdded once the pad has been classified to a target branch
`b` with encryption flag `cencPad`, main.cpp lines 452-526.

Encrypted path (lines 452-506): request cencdec READY (no link-state
effect); if the cencdec sink pad exists and is unlinked, attempt
newPad→cencdec (failure only logs); then, if cencdec src and queue sink
pads exist: when the queue sink is unlinked, attempt cencdec→queue and
RETURN on success, or fall through on failure; when the queue sink is
already linked, RETURN.  Fallback (lines 509-524): if the queue sink pad
exists and is unlinked, attempt newPad→queue; an already-linked queue sink
is a logged no-op. -/
def routePad (env : RouteEnv) (L : Links) (b : Branch) (cencPad : Bool) :
    Links × List LinkEv :=
  let step1 : Links × List LinkEv × Bool :=
    if cencPad && env.hasCencdec then
      let s1 : Links × List LinkEv :=
        if env.cencSinkAvail then
          if !L.cencSink then
            if env.linkPadToCencOk then
              ({ L with cencSink := true }, [LinkEv.padToCenc true])
            else (L, [LinkEv.padToCenc false])
          else (L, [])
        else (L, [])
      if env.cencSrcAvail && env.qSinkAvail then
        if !(qLinked s1.1 b) then
          if env.linkCencToQueueOk then
            (setQLinked s1.1 b, s1.2 ++ [LinkEv.cencToQueue b true], true)
          else (s1.1, s1.2 ++ [LinkEv.cencToQueue b false], false)
        else (s1.1, s1.2, true)
      else (s1.1, s1.2, false)
    else (L, [], false)
  if step1.2.2 then (step1.1, step1.2.1)
  else
    if env.qSinkAvail then
      if !(qLinked step1.1 b) then
        if env.linkPadToQueueOk then
          (setQLinked step1.1 b, step1.2.1 ++ [LinkEv.padToQueue b true])
        else (step1.1, step1.2.1 ++ [LinkEv.padToQueue b false])
      else (step1.1, step1.2.1)
    else (step1.1, step1.2.1)

/-- onPadAdded, main.cpp lines 399-527: ignore non-src pads (line 404) and
pads without usable caps; classify by caps-name prefix (lines 436-442);
pads that are neither video/* nor audio/* have no target queue and are
ignored (lines 444-449) — note this happens BEFORE the encrypted-path
check, so bare application/x-cenc caps are never routed; then route. -/
def onPadAdded (env : RouteEnv) (L : Links) (pad : PadEvent) :
    Links × List LinkEv :=
  if pad.dir = PadDir.src then
    match pad.capsName with
    | none => (L, [])
    | some name =>
      let isVideo := gstrHasPref name "video/"
      let isAudio := gstrHasPref name "audio/"
      let cencPad := gstrHasPref name "application/x-cenc"
                  || gstrHasPref name "video/encv"
                  || gstrHasPref name "audio/enca"
      match (if isVideo then some Branch.video
             else if isAudio then some Branch.audio else none) with
      | none => (L, [])
      | some b => routePad env L b cencPad
  else (L, [])

/-- A whole discovery session: onPadAdded invoked once per discovered pad,
in delivery order (the design assumes serialized delivery). -/
def routeAll (L : Links) : List (RouteEnv × PadEvent) → Links × List LinkEv
  | [] => (L, [])
  | s :: rest =>
    let r := onPadAdded s.1 L s.2
    let r2 := routeAll r.1 rest
    (r2.1, r.2 ++ r2.2)

/-- The three input endpoints links can be established into. -/
inductive Inp
  | cencSink
  | qSink (b : Branch)
deriving DecidableEq

def targetInp : LinkEv → Inp
  | LinkEv.padToCenc _ => Inp.cencSink
  | LinkEv.cencToQueue b _ => Inp.qSink b
  | LinkEv.padToQueue b _ => Inp.qSink b

def linkEvOk : LinkEv → Bool
  | LinkEv.padToCenc ok => ok
  | LinkEv.cencToQueue _ ok => ok
  | LinkEv.padToQueue _ ok => ok

/-- Number of successfully established links into input `i` in a trace. -/
def succCount (i : Inp) (tr : List LinkEv) : Nat :=
  (tr.filter (fun e => decide (targetInp e = i) && linkEvOk e)).length

/-- All link attempts (successful or not) into input `i` in a trace. -/
def attemptsInto (i : Inp) (tr : List LinkEv) : List LinkEv :=
  tr.filter (fun e => decide (targetInp e = i))

def inpLinked (L : Links) : Inp → Bool
  | Inp.cencSink => L.cencSink
  | Inp.qSink b => qLinked L b

def isDirectLinkEv : LinkEv → Bool
  | LinkEv.padToQueue _ _ => true
  | _ => false

/-- The direct demux→queue fallback link attempts in a trace. -/
def directAttempts (tr : List LinkEv) : List LinkEv :=
  tr.filter isDirectLinkEv

def isCencQueueEv : LinkEv → Bool
  | LinkEv.cencToQueue _ _ => true
  | _ => false

/-- The cencdec→queue link attempts in a trace. -/
def cencQueueAttempts (tr : List LinkEv) : List LinkEv :=
  tr.filter isCencQueueEv

/-- Linked status of input `i` as a 0/1 counter, for totalling successful
link events against. -/
def linkedNat (L : Links) (i : Inp) : Nat := if inpLinked L i then 1 else 0

/-- Routing environment of a protected-stream discovery in which the
endpoint→decryptor link fails but the decryptor→queue link succeeds. -/
def envEntryLinkFails : RouteEnv :=
  { hasCencdec := true, cencSinkAvail := true, cencSrcAvail := true
    qSinkAvail := true, linkPadToCencOk := false, linkCencToQueueOk := true
    linkPadToQueueOk := true }

/-- Routing environment of a protected-stream discovery in which the
decryptor→queue link fails. -/
def envDecOutFails : RouteEnv :=
  { hasCencdec := true, cencSinkAvail := true, cencSrcAvail := true
    qSinkAvail := true, linkPadToCencOk := true, linkCencToQueueOk := false
    linkPadToQueueOk := true }

/-- Routing environment without a cencdec element and with every link
succeeding. -/
def envAllOk : RouteEnv :=
  { hasCencdec := false, cencSinkAvail := true, cencSrcAvail := true
    qSinkAvail := true, linkPadToCencOk := true, linkCencToQueueOk := true
    linkPadToQueueOk := true }

/-- A plain unprotected video pad as discovered by decodebin. -/
def vidPad : PadEvent := { dir := PadDir.src, capsName := some "video/x-raw" }

/-- A concrete metrics state with one prior valid timestamp, used to
instantiate theorems about the buffer probe. -/
def witMetrics : Metrics :=
  { firstFrameSeen := true, ttffArmed := true, lastPts := some 0
    frames := [], frameCount := 0 }

/-! ## Theorems -/

theorem appendSample_length_le (frames : List Int) (d : Int)
    (h : frames.length ≤ 1200) : (appendSample frames d).length ≤ 1200 := by
  have hlen : (frames ++ [d]).length = frames.length + 1 := by simp
  simp only [appendSample]
  split
  · rw [List.length_drop, hlen]
    omega
  · rw [hlen]
    omega

theorem windowOf_length_le (ds : List Int) : (windowOf ds).length ≤ 1200 := by
  suffices h : ∀ (es : List Int) (L : List Int), L.length ≤ 1200 →
      (es.foldl appendSample L).length ≤ 1200 by
    exact h ds [] (by simp)
  intro es
  induction es with
  | nil => intro L hL; simpa using hL
  | cons d rest ih =>
    intro L hL
    exact ih _ (appendSample_length_le L d hL)

/-- Claim C1, counterexample: on a window of length 1200 (a reachable
state), the next append crosses the 1200 ceiling, the trim fires, and the
window length right after the trim is 1001 — not at most 1000 as the claim
states. -/
theorem C1_trim_leaves_1001 :
    1200 < (List.replicate 1200 (0 : Int) ++ [7]).length ∧
    appendSample (List.replicate 1200 (0 : Int)) 7
      = (List.replicate 1200 (0 : Int) ++ [7]).drop 200 ∧
    1000 < (appendSample (List.replicate 1200 (0 : Int)) 7).length := by
  have hlen : (List.replicate 1200 (0 : Int) ++ [7]).length = 1201 := by
    rw [List.length_append, List.length_replicate]
    rfl
  have hc : 1200 < (List.replicate 1200 (0 : Int) ++ [7]).length := by
    rw [hlen]; omega
  have he : appendSample (List.replicate 1200 (0 : Int)) 7
      = (List.replicate 1200 (0 : Int) ++ [7]).drop 200 := by
    simp only [appendSample]
    rw [if_pos hc]
  refine ⟨hc, he, ?_⟩
  rw [he, List.length_drop, hlen]
  omega

/-- Claim C1 (amended): whenever an appended sample makes the window length
exceed 1200, the oldest 200 entries (in arrival order) are removed, and
after any such trim the window length is exactly 1001 — hence at most 1001,
not at most 1000; the remaining samples are the most recent ones in their
original arrival order (the result is the 200-dropped suffix of the arrival
sequence), and every window reachable from the cleared state stays at
length at most 1200. -/
theorem C1_window_trim (frames : List Int) (d : Int)
    (h : frames.length ≤ 1200) :
    appendSample frames d <:+ frames ++ [d] ∧
    (appendSample frames d).length ≤ 1200 ∧
    (1200 < (frames ++ [d]).length →
      appendSample frames d = (frames ++ [d]).drop 200 ∧
      (appendSample frames d).length = 1001) ∧
    ∀ ds : List Int, (windowOf ds).length ≤ 1200 := by
  refine ⟨?_, appendSample_length_le frames d h, ?_, fun ds => windowOf_length_le ds⟩
  · simp only [appendSample]
    split
    · exact List.drop_suffix 200 (frames ++ [d])
    · exact List.suffix_refl _
  · intro hgt
    have he : appendSample frames d = (frames ++ [d]).drop 200 := by
      simp only [appendSample]
      rw [if_pos hgt]
    have hlen : (frames ++ [d]).length = frames.length + 1 := by simp
    refine ⟨he, ?_⟩
    rw [he, List.length_drop, hlen]
    rw [hlen] at hgt
    omega

/-- Claim C1 (amended), witness at a window of length 1200. -/
theorem C1_window_trim_witness :
    (List.replicate 1200 (0 : Int)).length ≤ 1200 ∧
    appendSample (List.replicate 1200 (0 : Int)) 5
      = (List.replicate 1200 (0 : Int) ++ [5]).drop 200 ∧
    (appendSample (List.replicate 1200 (0 : Int)) 5).length = 1001 := by
  have hle : (List.replicate 1200 (0 : Int)).length ≤ 1200 := by
    rw [List.length_replicate]
  have hgt : 1200 < (List.replicate 1200 (0 : Int) ++ [5]).length := by
    rw [List.length_append, List.length_replicate, List.length_cons,
      List.length_nil]
    omega
  exact ⟨hle,
    ((C1_window_trim (List.replicate 1200 (0 : Int)) 5 hle).2.2.1 hgt).1,
    ((C1_window_trim (List.replicate 1200 (0 : Int)) 5 hle).2.2.1 hgt).2⟩

/-- Claim C5 (confirmed): for every frame after the first post-reset frame
with a valid timestamp (lastPts is set), with interval = pts - lastPts: a
positive interval appends the millisecond interval to the window (subject
to the capacity trim) and increments the frame counter; a non-positive
interval leaves window and counter unchanged; in both cases lastPts is
updated to the new timestamp. -/
theorem C5_interval_gating (m : Metrics) (l t : Nat) (h : m.lastPts = some l) :
    (0 < (t : Int) - (l : Int) →
        (onSinkBufferProbe m (some t)).frames
          = appendSample m.frames (((t : Int) - (l : Int)) / GST_MSECOND) ∧
        (onSinkBufferProbe m (some t)).frameCount = m.frameCount + 1) ∧
    ((t : Int) - (l : Int) ≤ 0 →
        (onSinkBufferProbe m (some t)).frames = m.frames ∧
        (onSinkBufferProbe m (some t)).frameCount = m.frameCount) ∧
    (onSinkBufferProbe m (some t)).lastPts = some t := by
  have key : onSinkBufferProbe m (some t) =
      if 0 < (t : Int) - (l : Int) then
        { m with firstFrameSeen := true
                 frames := appendSample m.frames
                   (((t : Int) - (l : Int)) / GST_MSECOND)
                 frameCount := m.frameCount + 1, lastPts := some t }
      else { m with firstFrameSeen := true, lastPts := some t } := by
    show (let m1 : Metrics := { m with firstFrameSeen := true }
      match m.lastPts with
      | none => { m1 with lastPts := some t }
      | some l =>
        let delta_ns : Int := (t : Int) - (l : Int)
        if 0 < delta_ns then
          { m1 with
              frames := appendSample m1.frames (delta_ns / GST_MSECOND),
              frameCount := m1.frameCount + 1,
              lastPts := some t }
        else
          { m1 with lastPts := some t }) = _
    rw [h]
  rw [key]
  by_cases hd : 0 < (t : Int) - (l : Int)
  · rw [if_pos hd]
    exact ⟨fun _ => ⟨rfl, rfl⟩, fun hc => absurd hd (not_lt.mpr hc), rfl⟩
  · rw [if_neg hd]
    exact ⟨fun hc => absurd hc hd, fun _ => ⟨rfl, rfl⟩, rfl⟩

/-- Claim C5, witness: one prior timestamp 0, new timestamp 2 ms later. -/
theorem C5_interval_gating_witness :
    witMetrics.lastPts = some 0 ∧
    (onSinkBufferProbe witMetrics (some 2000000)).frames
      = appendSample witMetrics.frames
          ((((2000000 : Nat) : Int) - ((0 : Nat) : Int)) / GST_MSECOND) ∧
    (onSinkBufferProbe witMetrics (some 2000000)).frameCount
      = witMetrics.frameCount + 1 ∧
    (onSinkBufferProbe witMetrics (some 2000000)).lastPts = some 2000000 := by
  refine ⟨rfl, ?_, ?_, ?_⟩
  · exact ((C5_interval_gating witMetrics 0 2000000 rfl).1 (by decide)).1
  · exact ((C5_interval_gating witMetrics 0 2000000 rfl).1 (by decide)).2
  · exact (C5_interval_gating witMetrics 0 2000000 rfl).2.2

theorem toggleQuality_flips_low (q : Player) :
    (toggleQuality q).1.lowQuality = !q.lowQuality := by
  cases hq : q.lowQuality <;> simp [toggleQuality, hq]

/-- Claim C6 (confirmed): starting with tier Full (lowQuality_ false), the
tier after N toggleQuality calls is Full when N is even and Reduced when N
is odd; each call from Full installs the 640x360 caps constraint and sets
Reduced; each call from Reduced clears the constraint and sets Full. -/
theorem C6_tier_alternation (p : Player) (hp : p.lowQuality = false) (n : Nat) :
    ((iterToggleQuality p n).lowQuality = decide (n % 2 = 1)) ∧
    (∀ q : Player, q.lowQuality = false →
      (toggleQuality q).1.vcapsCaps = some { width := 640, height := 360 } ∧
      (toggleQuality q).1.lowQuality = true) ∧
    (∀ q : Player, q.lowQuality = true →
      (toggleQuality q).1.vcapsCaps = none ∧
      (toggleQuality q).1.lowQuality = false) := by
  refine ⟨?_, ?_, ?_⟩
  · induction n with
    | zero => simpa using hp
    | succ k ih =>
      rcases Nat.mod_two_eq_zero_or_one k with hk | hk
      · have h1 : (k + 1) % 2 = 1 := by omega
        simp [iterToggleQuality, toggleQuality_flips_low, ih, hk, h1]
      · have h1 : (k + 1) % 2 = 0 := by omega
        simp [iterToggleQuality, toggleQuality_flips_low, ih, hk, h1]
  · intro q hq
    constructor
    · simp [toggleQuality, hq, lowCaps]
    · simp [toggleQuality, hq]
  · intro q hq
    constructor
    · simp [toggleQuality, hq]
    · simp [toggleQuality, hq]

/-- Claim C6, witness: initial session state, three calls. -/
theorem C6_tier_alternation_witness :
    initialPlayer.lowQuality = false ∧
    (iterToggleQuality initialPlayer 3).lowQuality = decide (3 % 2 = 1) ∧
    (toggleQuality initialPlayer).1.vcapsCaps
      = some { width := 640, height := 360 } := by
  refine ⟨rfl, (C6_tier_alternation initialPlayer rfl 3).1, ?_⟩
  exact ((C6_tier_alternation initialPlayer rfl 3).2.1 initialPlayer rfl).1

/-- Claim C7 (confirmed): every toggleQuality invocation ends with an
unconditional PLAYING state request (main.cpp line 365), whatever the
current state and tier were — the last engine command of its trace is the
PLAYING request and the requested pipeline state afterwards is Playing. -/
theorem C7_unconditional_playing (p : Player) :
    (toggleQuality p).1.pState = GstState.playing ∧
    ((toggleQuality p).2).getLast? = some (Ev.setStateReq GstState.playing) := by
  cases hq : p.lowQuality <;> simp [toggleQuality, hq]

/-- Claim C8 (confirmed): every ERROR or EOS message drained by pumpBus
requests READY and resets the control label to "Play", whatever the current
state; the player survives and a subsequent togglePlayPause issues a
PLAYING request (restart). -/
theorem C8_error_eos_to_ready (p : Player) (m : GstMessage)
    (hm : m = GstMessage.eos ∨ ∃ s, m = GstMessage.error s) :
    (processMessage p m).1.pState = GstState.ready ∧
    (processMessage p m).1.btnText = "Play" ∧
    Ev.setStateReq GstState.ready ∈ (processMessage p m).2 ∧
    ∀ avail : Bool,
      Ev.setStateReq GstState.playing
        ∈ (togglePlayPause avail (processMessage p m).1).2 := by
  have hready : (processMessage p m).1.pState = GstState.ready ∧
      (processMessage p m).1.btnText = "Play" ∧
      Ev.setStateReq GstState.ready ∈ (processMessage p m).2 := by
    rcases hm with h | ⟨s, h⟩ <;> subst h <;>
      exact ⟨rfl, rfl, by simp [processMessage]⟩
  refine ⟨hready.1, hready.2.1, hready.2.2, ?_⟩
  intro avail
  simp [togglePlayPause, hready.1]

/-- Claim C8, witness: EOS drained in the initial state, then Play. -/
theorem C8_error_eos_to_ready_witness :
    (GstMessage.eos = GstMessage.eos
      ∨ ∃ s, GstMessage.eos = GstMessage.error s) ∧
    (processMessage initialPlayer GstMessage.eos).1.pState = GstState.ready ∧
    Ev.setStateReq GstState.playing
      ∈ (togglePlayPause true
          (processMessage initialPlayer GstMessage.eos).1).2 := by
  refine ⟨Or.inl rfl, ?_, ?_⟩
  · exact (C8_error_eos_to_ready initialPlayer GstMessage.eos (Or.inl rfl)).1
  · exact (C8_error_eos_to_ready initialPlayer GstMessage.eos
      (Or.inl rfl)).2.2.2 true

/-- Claim C2, counterexample: from a Paused player with the probe not yet
attached, the non-playing branch of togglePlayPause requests PLAYING
(main.cpp line 253) BEFORE attaching the buffer probe (line 257): the
attachProbe command is in the trace but not in the prefix issued before
the PLAYING request, contradicting the claim's "all before the Playing
state is requested". -/
theorem C2_probe_attached_after_play_request :
    (togglePlayPause true { initialPlayer with pState := GstState.paused }).2
      = [Ev.armTTFF, Ev.resetMetricsWindow, Ev.clearLastPts,
         Ev.setStateReq GstState.playing, Ev.setBtnText "Pause",
         Ev.attachProbe] ∧
    Ev.attachProbe
      ∈ (togglePlayPause true
          { initialPlayer with pState := GstState.paused }).2 ∧
    Ev.attachProbe
      ∉ beforePlayReq (togglePlayPause true
          { initialPlayer with pState := GstState.paused }).2 := by
  refine ⟨by decide, by decide, by decide⟩

/-- Claim C2 (amended): if currently Playing, a Paused request is issued;
otherwise the Metrics Collector is reset (window cleared, counter zeroed,
TTFF stopwatch re-armed) and the last-timestamp tracking cleared before the
Playing state is requested, and the buffer-observation probe is attached
idempotently (guarded by a flag, at most once per session) immediately
AFTER the Playing state is requested, not before. -/
theorem C2_toggle_play_pause (p : Player) (avail : Bool) :
    (p.pState = GstState.playing →
       (togglePlayPause avail p).1.pState = GstState.paused ∧
       (togglePlayPause avail p).2
         = [Ev.setStateReq GstState.paused, Ev.setBtnText "Play"]) ∧
    (p.pState ≠ GstState.playing →
       (togglePlayPause avail p).1.metrics = resetMetrics ∧
       (togglePlayPause avail p).1.pState = GstState.playing ∧
       (togglePlayPause avail p).1.sinkProbeAttached
         = (p.sinkProbeAttached || avail) ∧
       Ev.armTTFF ∈ beforePlayReq (togglePlayPause avail p).2 ∧
       Ev.resetMetricsWindow ∈ beforePlayReq (togglePlayPause avail p).2 ∧
       Ev.clearLastPts ∈ beforePlayReq (togglePlayPause avail p).2 ∧
       Ev.setStateReq GstState.playing ∈ (togglePlayPause avail p).2 ∧
       Ev.attachProbe ∉ beforePlayReq (togglePlayPause avail p).2 ∧
       (Ev.attachProbe ∈ (togglePlayPause avail p).2 ↔
         (p.sinkProbeAttached = false ∧ avail = true))) := by
  constructor
  · intro hp
    simp [togglePlayPause, hp]
  · intro hp
    cases ha : p.sinkProbeAttached <;> cases hv : avail <;>
      simp [togglePlayPause, attachSinkProbeIfNeeded, if_neg hp,
        beforePlayReq, ha, hv]

/-- Claim C2 (amended), witness: Paused player, probe not attached. -/
theorem C2_toggle_play_pause_witness :
    ({ initialPlayer with pState := GstState.paused } : Player).pState
      ≠ GstState.playing ∧
    (togglePlayPause true
      { initialPlayer with pState := GstState.paused }).1.metrics
        = resetMetrics ∧
    Ev.attachProbe ∉ beforePlayReq (togglePlayPause true
      { initialPlayer with pState := GstState.paused }).2 := by
  have h : ({ initialPlayer with pState := GstState.paused } : Player).pState
      ≠ GstState.playing := by decide
  refine ⟨h, ?_, ?_⟩
  · exact ((C2_toggle_play_pause
      { initialPlayer with pState := GstState.paused } true).2 h).1
  · exact ((C2_toggle_play_pause
      { initialPlayer with pState := GstState.paused } true).2
        h).2.2.2.2.2.2.2.1

theorem routePad_cenc_spec_ret (env : RouteEnv) (L : Links) (b : Branch)
    (hc : env.hasCencdec = true) (h1 : env.cencSrcAvail = true)
    (h2 : env.qSinkAvail = true) (h3 : qLinked L b = false)
    (h4 : env.linkCencToQueueOk = true) :
    directAttempts (routePad env L b true).2 = [] ∧
    qLinked (routePad env L b true).1 b = true := by
  obtain ⟨e1, e2, e3, e4, e5, e6, e7⟩ := env
  obtain ⟨l1, l2, l3⟩ := L
  simp only at hc h1 h2 h4
  subst hc h1 h2 h4
  cases b
  · simp only [qLinked] at h3
    subst h3
    revert e2 e5 e7 l1 l3
    decide
  · simp only [qLinked] at h3
    subst h3
    revert e2 e5 e7 l1 l2
    decide

theorem routePad_cenc_spec_fall (env : RouteEnv) (L : Links) (b : Branch)
    (hc : env.hasCencdec = true) (h1 : env.cencSrcAvail = true)
    (h2 : env.qSinkAvail = true) (h3 : qLinked L b = false)
    (h4 : env.linkCencToQueueOk = false) :
    directAttempts (routePad env L b true).2
      = [LinkEv.padToQueue b env.linkPadToQueueOk] ∧
    cencQueueAttempts (routePad env L b true).2
      = [LinkEv.cencToQueue b false] := by
  obtain ⟨e1, e2, e3, e4, e5, e6, e7⟩ := env
  obtain ⟨l1, l2, l3⟩ := L
  simp only at hc h1 h2 h4
  subst hc h1 h2 h4
  cases b
  · simp only [qLinked] at h3
    subst h3
    revert e2 e5 e7 l1 l3
    decide
  · simp only [qLinked] at h3
    subst h3
    revert e2 e5 e7 l1 l2
    decide

theorem routePad_step (env : RouteEnv) (L : Links) (b : Branch) (c : Bool)
    (i : Inp) :
    linkedNat (routePad env L b c).1 i
      = linkedNat L i + succCount i (routePad env L b c).2 ∧
    (inpLinked L i = true → attemptsInto i (routePad env L b c).2 = []) := by
  obtain ⟨e1, e2, e3, e4, e5, e6, e7⟩ := env
  obtain ⟨l1, l2, l3⟩ := L
  rcases i with _ | b2
  · cases b <;> cases c <;> (revert e1 e2 e3 e4 e5 e6 e7 l1 l2 l3; decide)
  · cases b <;> cases b2 <;> cases c <;>
      (revert e1 e2 e3 e4 e5 e6 e7 l1 l2 l3; decide)

theorem succCount_append (i : Inp) (a b : List LinkEv) :
    succCount i (a ++ b) = succCount i a + succCount i b := by
  simp [succCount, List.filter_append]

theorem onPadAdded_cases (env : RouteEnv) (L : Links) (pad : PadEvent) :
    onPadAdded env L pad = (L, []) ∨
    ∃ b c, onPadAdded env L pad = routePad env L b c := by
  obtain ⟨dir, cn⟩ := pad
  cases dir
  · cases cn with
    | none => left; rfl
    | some name =>
      by_cases hv : gstrHasPref name "video/"
      · right
        exact ⟨Branch.video,
          gstrHasPref name "application/x-cenc" || gstrHasPref name "video/encv"
            || gstrHasPref name "audio/enca", by simp [onPadAdded, hv]⟩
      · by_cases ha : gstrHasPref name "audio/"
        · right
          exact ⟨Branch.audio,
            gstrHasPref name "application/x-cenc" || gstrHasPref name "video/encv"
              || gstrHasPref name "audio/enca", by simp [onPadAdded, hv, ha]⟩
        · left
          simp [onPadAdded, hv, ha]
  · left; rfl

theorem onPadAdded_step (env : RouteEnv) (L : Links) (pad : PadEvent)
    (i : Inp) :
    linkedNat (onPadAdded env L pad).1 i
      = linkedNat L i + succCount i (onPadAdded env L pad).2 ∧
    (inpLinked L i = true → attemptsInto i (onPadAdded env L pad).2 = []) := by
  rcases onPadAdded_cases env L pad with h | ⟨b, c, h⟩
  · rw [h]
    exact ⟨by simp [succCount], fun _ => by simp [attemptsInto]⟩
  · rw [h]
    exact routePad_step env L b c i

theorem linkedNat_le_one (L : Links) (i : Inp) : linkedNat L i ≤ 1 := by
  unfold linkedNat
  split <;> omega

theorem routeAll_linked_add (steps : List (RouteEnv × PadEvent)) :
    ∀ (L : Links) (i : Inp),
      linkedNat (routeAll L steps).1 i
        = linkedNat L i + succCount i (routeAll L steps).2 := by
  induction steps with
  | nil =>
    intro L i
    simp [routeAll, succCount]
  | cons s rest ih =>
    intro L i
    have h1 := (onPadAdded_step s.1 L s.2 i).1
    have h2 := ih (onPadAdded s.1 L s.2).1 i
    have hsum : succCount i (routeAll L (s :: rest)).2
        = succCount i (onPadAdded s.1 L s.2).2
          + succCount i (routeAll (onPadAdded s.1 L s.2).1 rest).2 := by
      simp only [routeAll, succCount_append]
    have hfst : (routeAll L (s :: rest)).1
        = (routeAll (onPadAdded s.1 L s.2).1 rest).1 := by
      simp only [routeAll]
    rw [hfst, hsum, h2, h1]
    omega

/-- Claim C3 (amended): for a protected discovered stream with a decryptor
available, if the Link from the Decryptor output to the target branch queue
input succeeds, the routine returns without ever attempting the direct
fallback Link — REGARDLESS of whether the Link from the endpoint into the
Decryptor succeeded; only when the Decryptor-output Link fails does the
routine fall through and attempt the direct Link from the endpoint to the
target branch input, without retrying the decryptor path (exactly one
decryptor→queue attempt). -/
theorem C3_decryptor_routing (env : RouteEnv) (L : Links) (name : String)
    (b : Branch) (hc : env.hasCencdec = true)
    (hb : (if gstrHasPref name "video/" then some Branch.video
           else if gstrHasPref name "audio/" then some Branch.audio
           else none) = some b)
    (hp : (gstrHasPref name "application/x-cenc"
           || gstrHasPref name "video/encv"
           || gstrHasPref name "audio/enca") = true) :
    (env.cencSrcAvail = true → env.qSinkAvail = true → qLinked L b = false →
      env.linkCencToQueueOk = true →
        directAttempts (onPadAdded env L ⟨PadDir.src, some name⟩).2 = [] ∧
        qLinked (onPadAdded env L ⟨PadDir.src, some name⟩).1 b = true) ∧
    (env.cencSrcAvail = true → env.qSinkAvail = true → qLinked L b = false →
      env.linkCencToQueueOk = false →
        directAttempts (onPadAdded env L ⟨PadDir.src, some name⟩).2
          = [LinkEv.padToQueue b env.linkPadToQueueOk] ∧
        cencQueueAttempts (onPadAdded env L ⟨PadDir.src, some name⟩).2
          = [LinkEv.cencToQueue b false]) := by
  have he : onPadAdded env L ⟨PadDir.src, some name⟩ = routePad env L b true := by
    simp only [onPadAdded, hp, hb, if_true]
  rw [he]
  exact ⟨fun h1 h2 h3 h4 => routePad_cenc_spec_ret env L b hc h1 h2 h3 h4,
         fun h1 h2 h3 h4 => routePad_cenc_spec_fall env L b hc h1 h2 h3 h4⟩

/-- Claim C3, counterexample: with a decryptor present, the
endpoint→decryptor Link FAILS (padToCenc false) and the decryptor→queue
Link succeeds — the routine returns at main.cpp line 491 and the direct
fallback is never attempted, contradicting the claim that failure of
either decryptor-path Link falls through to the direct Link. -/
theorem C3_no_fallback_after_entry_link_failure :
    (onPadAdded envEntryLinkFails Links.init
        ⟨PadDir.src, some "video/encv"⟩).2
      = [LinkEv.padToCenc false, LinkEv.cencToQueue Branch.video true] ∧
    directAttempts (onPadAdded envEntryLinkFails Links.init
        ⟨PadDir.src, some "video/encv"⟩).2 = [] :=
  ⟨by decide, by decide⟩

/-- Claim C3 (amended), witness: decryptor→queue link fails on a protected
audio stream; the direct fallback is attempted and the decryptor path is
not retried. -/
theorem C3_decryptor_routing_witness :
    envDecOutFails.hasCencdec = true ∧
    directAttempts (onPadAdded envDecOutFails Links.init
        ⟨PadDir.src, some "audio/enca"⟩).2
      = [LinkEv.padToQueue Branch.audio envDecOutFails.linkPadToQueueOk] ∧
    cencQueueAttempts (onPadAdded envDecOutFails Links.init
        ⟨PadDir.src, some "audio/enca"⟩).2
      = [LinkEv.cencToQueue Branch.audio false] := by
  refine ⟨rfl, ?_, ?_⟩
  · exact ((C3_decryptor_routing envDecOutFails Links.init "audio/enca"
      Branch.audio rfl (by decide) (by decide)).2 rfl rfl rfl rfl).1
  · exact ((C3_decryptor_routing envDecOutFails Links.init "audio/enca"
      Branch.audio rfl (by decide) (by decide)).2 rfl rfl rfl rfl).2

/-- Claim C9 (confirmed): over any discovery session starting from the
all-unlinked graph, at most one Link is ever successfully established into
each input endpoint; and once an input is linked, a further invocation of
the routing routine makes no link attempt into it at all (skipped as a
no-op, not an error). -/
theorem C9_at_most_one_link (steps : List (RouteEnv × PadEvent)) (i : Inp) :
    succCount i (routeAll Links.init steps).2 ≤ 1 ∧
    (inpLinked (routeAll Links.init steps).1 i = true →
      ∀ (env : RouteEnv) (pad : PadEvent),
        attemptsInto i (onPadAdded env (routeAll Links.init steps).1 pad).2
          = []) := by
  have hadd := routeAll_linked_add steps Links.init i
  have hle := linkedNat_le_one (routeAll Links.init steps).1 i
  have hz : linkedNat Links.init i = 0 := by
    rcases i with _ | b2
    · rfl
    · cases b2 <;> rfl
  rw [hz] at hadd
  constructor
  · omega
  · intro hl env pad
    exact (onPadAdded_step env (routeAll Links.init steps).1 pad i).2 hl

/-- Claim C9, witness: one successful direct video route, then a repeated
invocation on the same endpoint attempts nothing into the linked input. -/
theorem C9_at_most_one_link_witness :
    succCount (Inp.qSink Branch.video)
      (routeAll Links.init [(envAllOk, vidPad)]).2 ≤ 1 ∧
    inpLinked (routeAll Links.init [(envAllOk, vidPad)]).1
      (Inp.qSink Branch.video) = true ∧
    attemptsInto (Inp.qSink Branch.video)
      (onPadAdded envAllOk (routeAll Links.init [(envAllOk, vidPad)]).1
        vidPad).2 = [] := by
  refine ⟨(C9_at_most_one_link [(envAllOk, vidPad)] (Inp.qSink Branch.video)).1,
    by decide, ?_⟩
  exact (C9_at_most_one_link [(envAllOk, vidPad)] (Inp.qSink Branch.video)).2
    (by decide) envAllOk vidPad

theorem length_sortedOf (v : List Int) : (sortedOf v).length = v.length :=
  List.length_insertionSort _ _

theorem sortedOf_pivot (x : Int) (xs : List Int) :
    sortedOf (x :: xs)
      = sortedOf (xs.filter (fun y => y < x))
        ++ x :: sortedOf (xs.filter (fun y => !decide (y < x))) := by
  have hperm : (sortedOf (xs.filter (fun y => y < x))
      ++ x :: sortedOf (xs.filter (fun y => !decide (y < x)))).Perm
        (x :: xs) := by
    have s1 : (sortedOf (xs.filter (fun y => y < x))
        ++ x :: sortedOf (xs.filter (fun y => !decide (y < x)))).Perm
          (xs.filter (fun y => y < x)
            ++ x :: xs.filter (fun y => !decide (y < x))) :=
      List.Perm.append (List.perm_insertionSort _ _)
        (List.Perm.cons x (List.perm_insertionSort _ _))
    have s2 : (xs.filter (fun y => y < x)
        ++ x :: xs.filter (fun y => !decide (y < x))).Perm
          (x :: (xs.filter (fun y => y < x)
            ++ xs.filter (fun y => !decide (y < x)))) := List.perm_middle
    have s3 : (x :: (xs.filter (fun y => y < x)
        ++ xs.filter (fun y => !decide (y < x)))).Perm (x :: xs) :=
      List.Perm.cons x (List.filter_append_perm _ xs)
    exact s1.trans (s2.trans s3)
  have hgemem : ∀ b ∈ sortedOf (xs.filter (fun y => !decide (y < x))),
      x ≤ b := by
    intro b hb
    have hb2 : b ∈ xs.filter (fun y => !decide (y < x)) :=
      (List.perm_insertionSort _ _).mem_iff.mp hb
    have hflag := (List.mem_filter.mp hb2).2
    have hnb : ¬ (b < x) := by simpa using hflag
    exact le_of_not_lt hnb
  have hltmem : ∀ a ∈ sortedOf (xs.filter (fun y => y < x)), a < x := by
    intro a ha
    have ha2 : a ∈ xs.filter (fun y => y < x) :=
      (List.perm_insertionSort _ _).mem_iff.mp ha
    have hflag := (List.mem_filter.mp ha2).2
    simpa using hflag
  have hsorted : List.Sorted (· ≤ ·)
      (sortedOf (xs.filter (fun y => y < x))
        ++ x :: sortedOf (xs.filter (fun y => !decide (y < x)))) := by
    refine List.pairwise_append.mpr
      ⟨List.sorted_insertionSort _ _, ?_, ?_⟩
    · exact List.sorted_cons.mpr ⟨hgemem, List.sorted_insertionSort _ _⟩
    · intro a ha b hb
      rcases List.mem_cons.mp hb with rfl | hb2
      · exact le_of_lt (hltmem a ha)
      · exact le_trans (le_of_lt (hltmem a ha)) (hgemem b hb2)
  exact List.eq_of_perm_of_sorted
    ((List.perm_insertionSort _ _).trans hperm.symm)
    (List.sorted_insertionSort _ _) hsorted

theorem nthElemSelect_eq_sortedOf :
    ∀ (n : Nat) (v : List Int), v.length ≤ n → ∀ k, k < v.length →
      nthElemSelect v k = (sortedOf v).getD k 0 := by
  intro n
  induction n with
  | zero =>
    intro v hv k hk
    omega
  | succ n ih =>
    intro v hv k hk
    cases v with
    | nil => simp at hk
    | cons x xs =>
      have hpart : (xs.filter (fun y => y < x)).length
          + (xs.filter (fun y => !decide (y < x))).length = xs.length := by
        have hl := (List.filter_append_perm (fun y => decide (y < x)) xs).length_eq
        simpa [List.length_append] using hl
      have hxs : xs.length ≤ n := by
        have : xs.length + 1 ≤ n + 1 := by simpa using hv
        omega
      have hlt_le : (xs.filter (fun y => y < x)).length ≤ n :=
        le_trans (List.length_filter_le _ _) hxs
      have hge_le : (xs.filter (fun y => !decide (y < x))).length ≤ n :=
        le_trans (List.length_filter_le _ _) hxs
      rw [nthElemSelect]
      split_ifs with h1 h2
      · rw [sortedOf_pivot]
        rw [List.getD_append _ _ _ _ (by rw [length_sortedOf]; exact h1)]
        exact ih _ hlt_le k h1
      · rw [sortedOf_pivot]
        rw [List.getD_append_right _ _ _ _
          (by rw [length_sortedOf]; omega)]
        have hz : k - (sortedOf (xs.filter (fun y => y < x))).length = 0 := by
          rw [length_sortedOf]; omega
        rw [hz]
        rfl
      · rw [sortedOf_pivot]
        rw [List.getD_append_right _ _ _ _
          (by rw [length_sortedOf]; omega)]
        have hklt : (xs.filter (fun y => y < x)).length < k := by omega
        have hj : k - (sortedOf (xs.filter (fun y => y < x))).length
            = (k - (xs.filter (fun y => y < x)).length - 1) + 1 := by
          rw [length_sortedOf]; omega
        rw [hj, List.getD_cons_succ]
        have hklen : k < xs.length + 1 := by simpa using hk
        exact ih _ hge_le _ (by omega)

theorem floorIdx_lt (n : Nat) (p : ℚ) (hn : 1 ≤ n) (h0 : 0 ≤ p)
    (h1 : p ≤ 100) : (⌊p / 100 * ((n : ℚ) - 1)⌋).toNat < n := by
  have hp1 : p / 100 ≤ 1 := by
    rw [div_le_one (by norm_num : (0 : ℚ) < 100)]
    exact h1
  have hn1 : (0 : ℚ) ≤ (n : ℚ) - 1 := by
    have h : (1 : ℚ) ≤ (n : ℚ) := by exact_mod_cast hn
    linarith
  have hle : p / 100 * ((n : ℚ) - 1) ≤ (n : ℚ) - 1 := by
    have hm := mul_le_mul_of_nonneg_right hp1 hn1
    simpa using hm
  have hfl : ⌊p / 100 * ((n : ℚ) - 1)⌋ ≤ (n : Int) - 1 := by
    have hmono := Int.floor_le_floor hle
    have hrfl : ⌊((n : ℚ) - 1)⌋ = (n : Int) - 1 := by
      rw [show ((n : ℚ) - 1) = (((n : Int) - 1 : Int) : ℚ) by push_cast; ring]
      exact Int.floor_intCast _
    omega
  have h2 : (⌊p / 100 * ((n : ℚ) - 1)⌋).toNat ≤ ((n : Int) - 1).toNat :=
    Int.toNat_le_toNat hfl
  omega

theorem sortedOf_eq_self {v : List Int} (hs : List.Sorted (· ≤ ·) v) :
    sortedOf v = v :=
  List.Sorted.insertionSort_eq hs

theorem percentile_eq_sortedOf_getD (v : List Int) (p : ℚ) (hv : v ≠ [])
    (h0 : 0 ≤ p) (h1 : p ≤ 100) :
    percentile v p
      = (sortedOf v).getD (⌊p / 100 * ((v.length : ℚ) - 1)⌋).toNat 0 := by
  have hn : 1 ≤ v.length := List.length_pos.mpr hv
  have hne : ¬ (v.isEmpty = true) := by
    cases v with
    | nil => exact absurd rfl hv
    | cons a l => simp
  rw [percentile, if_neg hne]
  exact nthElemSelect_eq_sortedOf v.length v le_rfl _
    (floorIdx_lt v.length p hn h0 h1)

/-- Claim C4 (confirmed): for every non-empty sample list and percentile
p in {50, 95}, percentile returns the element at index
floor(p/100 * (n-1)) of the value-sorted order; for a constant-valued list
both percentiles equal that constant, and for a sorted ascending list the
returned value is the element at that index of the list itself. -/
theorem C4_percentile_order_statistic (v : List Int) (p : ℚ) (hv : v ≠ [])
    (hp : p = 50 ∨ p = 95) :
    percentile v p
      = (sortedOf v).getD (⌊p / 100 * ((v.length : ℚ) - 1)⌋).toNat 0 ∧
    (∀ c : Int, (∀ y ∈ v, y = c) → percentile v p = c) ∧
    (List.Sorted (· ≤ ·) v →
      percentile v p
        = v.getD (⌊p / 100 * ((v.length : ℚ) - 1)⌋).toNat 0) := by
  have h0 : 0 ≤ p := by rcases hp with h | h <;> rw [h] <;> norm_num
  have h1 : p ≤ 100 := by rcases hp with h | h <;> rw [h] <;> norm_num
  have hn : 1 ≤ v.length := List.length_pos.mpr hv
  have hmain := percentile_eq_sortedOf_getD v p hv h0 h1
  have hidx := floorIdx_lt v.length p hn h0 h1
  refine ⟨hmain, ?_, ?_⟩
  · intro c hc
    rw [hmain]
    have hlen : (⌊p / 100 * ((v.length : ℚ) - 1)⌋).toNat
        < (sortedOf v).length := by
      rw [length_sortedOf]
      exact hidx
    rw [List.getD_eq_getElem _ _ hlen]
    exact hc _ ((List.perm_insertionSort _ v).subset (List.getElem_mem hlen))
  · intro hs
    rw [hmain, sortedOf_eq_self hs]

/-- Claim C4, witness: p50 of [3, 1, 2]. -/
theorem C4_percentile_order_statistic_witness :
    ([3, 1, 2] : List Int) ≠ [] ∧
    ((50 : ℚ) = 50 ∨ (50 : ℚ) = 95) ∧
    percentile [3, 1, 2] 50
      = (sortedOf [3, 1, 2]).getD
          (⌊(50 : ℚ) / 100
            * ((([3, 1, 2] : List Int).length : ℚ) - 1)⌋).toNat 0 :=
  ⟨by decide, Or.inl rfl,
    (C4_percentile_order_statistic [3, 1, 2] 50 (by decide) (Or.inl rfl)).1⟩

/-- Claim C10 (confirmed): percentile is total and in-bounds — the empty
list yields 0 with no element access, and for every non-empty list and
0 ≤ p ≤ 100 the computed index is at most n-1, so the result is an element
of the input list. -/
theorem C10_percentile_total (v : List Int) (p : ℚ) (h0 : 0 ≤ p)
    (h1 : p ≤ 100) :
    percentile ([] : List Int) p = 0 ∧
    (v ≠ [] →
      (⌊p / 100 * ((v.length : ℚ) - 1)⌋).toNat ≤ v.length - 1 ∧
      percentile v p ∈ v) := by
  constructor
  · rfl
  · intro hv
    have hn : 1 ≤ v.length := List.length_pos.mpr hv
    have hidx := floorIdx_lt v.length p hn h0 h1
    refine ⟨by omega, ?_⟩
    rw [percentile_eq_sortedOf_getD v p hv h0 h1]
    have hlen : (⌊p / 100 * ((v.length : ℚ) - 1)⌋).toNat
        < (sortedOf v).length := by
      rw [length_sortedOf]
      exact hidx
    rw [List.getD_eq_getElem _ _ hlen]
    exact (List.perm_insertionSort _ v).subset (List.getElem_mem hlen)

/-- Claim C10, witness: p95 of [5, 4] and of the empty list. -/
theorem C10_percentile_total_witness :
    (0 : ℚ) ≤ 95 ∧ (95 : ℚ) ≤ 100 ∧
    ([5, 4] : List Int) ≠ [] ∧
    percentile ([] : List Int) 95 = 0 ∧
    percentile [5, 4] 95 ∈ ([5, 4] : List Int) := by
  refine ⟨by norm_num, by norm_num, by decide, ?_, ?_⟩
  · exact (C10_percentile_total [5, 4] 95 (by norm_num) (by norm_num)).1
  · exact ((C10_percentile_total [5, 4] 95 (by norm_num)
      (by norm_num)).2 (by decide)).2

end GstQtPoc
